import Mathlib

/-!
# Verification of the go-agentsandbox policy compiler and execution engine

Shallow embedding of the core of `github.com/niwoerner/go-agentsandbox`:
the sandbox `Config`, the path containment check `pathInDenyRead`, the
wildcard sentinel helpers, the bubblewrap (namespace backend) argument
compiler `buildArgs`, the sandbox-exec (profile backend) compiler
`generateProfile`, the shared environment filter `buildEnv`, the path
resolver `expandPath`, and the per-run result logic of `RunWithStdin`
on both backends.

Go slices become Lean lists, Go strings become Lean `String`, and the
ambient operating-system state that the Go code reads (home directory,
working directory, symlink resolution, process environment, process exit
status, context cancellation) is passed explicitly as parameters, so that
every definition is executable.
-/

namespace AgentSandbox

/-- Models `Config` from the sandbox package (field for field). -/
structure Config where
  Workdir : String
  AllowWrite : List String
  DenyRead : List String
  CleanEnv : Bool
  EnvAllowlist : List String
  EnvDenylist : List String
  DryRun : Bool
deriving Repr, DecidableEq

/-- Models Go `strings.HasPrefix s pre` (byte-wise prefix test). -/
def goHasPrefix (s pre : String) : Bool :=
  pre.data.isPrefixOf s.data

/-- `string(filepath.Separator)` on the unix platforms this code targets. -/
def pathSeparator : String := "/"

/-- Models `pathInDenyRead` from the sandbox package: a path is denied iff
it equals a deny-read entry or starts with a deny-read entry followed by the
path separator. -/
def pathInDenyRead (path : String) (denyRead : List String) : Bool :=
  denyRead.any (fun denied => path == denied || goHasPrefix path (denied ++ pathSeparator))

/-- Models `IsWildcard` from config.go: exact string equality with `*`. -/
def IsWildcard (path : String) : Bool := path == "*"

/-- Models `HasWildcard` from config.go. -/
def HasWildcard (paths : List String) : Bool := paths.any IsWildcard

/-- Models the `containsSequence` helper of the repository's linux tests:
whether `seq` occurs as a block of consecutive elements of `slice`. -/
def containsSequence : List String → List String → Bool
  | _, [] => true
  | [], _ :: _ => false
  | a :: rest, b :: seq => (b :: seq).isPrefixOf (a :: rest) || containsSequence rest (b :: seq)

/-- Models the `linuxSandbox` struct from linux.go. -/
structure linuxSandbox where
  cfg : Config
  bwrapBin : String

/-- Models `(*linuxSandbox).buildArgs` from linux.go: the ordered bubblewrap
argument list, translated append-for-append from the Go code. -/
def linuxSandbox.buildArgs (s : linuxSandbox) (cmd : String) : List String :=
  ["--share-net", "--die-with-parent"]
    ++ ["--ro-bind", "/", "/"]
    ++ ((s.cfg.AllowWrite.filter (fun path => !pathInDenyRead path s.cfg.DenyRead)).flatMap
        (fun path => ["--bind", path, path]))
    ++ (s.cfg.DenyRead.flatMap (fun path => ["--tmpfs", path]))
    ++ ["--dev", "/dev"] ++ ["--proc", "/proc"]
    ++ ["--chdir", s.cfg.Workdir]
    ++ ["sh", "-c", cmd]

/-- Models `(*linuxSandbox).dryRunOutput`. -/
def linuxSandbox.dryRunOutput (s : linuxSandbox) (args : List String) : String :=
  s.bwrapBin ++ " " ++ String.intercalate " " args

/-- Exit state of the spawned launcher process, as `os.ProcessState` reports it
after `Wait`: a normal exit with a code, or termination by a signal. -/
inductive ExitStatus where
  | exited (code : Nat)
  | signaled (sig : Nat)
deriving Repr, DecidableEq

/-- Models `(*os.ProcessState).ExitCode()`: the exit code, or `-1` when the
process was terminated by a signal. -/
def exitCodeOfStatus : ExitStatus → Int
  | .exited code => (code : Int)
  | .signaled _ => -1

/-- The distinct non-nil `error` values a run can return. -/
inductive RunError where
  /-- `(*exec.Cmd).Start` failed (launcher could not be spawned). -/
  | spawnFailed
  /-- `(*exec.Cmd).Wait` (or `CombinedOutput`) returned the Go `*exec.ExitError`
  for a process that exited non-zero or was killed by a signal. -/
  | waitFailed (st : ExitStatus)
  /-- `ctx.Err()`: the context was cancelled or its deadline passed. -/
  | ctxDone
deriving Repr, DecidableEq

/-- The events of one real (non-dry-run) execution that the Go code observes
from the operating system; passed explicitly to keep the run logic pure. -/
structure RunEvents where
  /-- `(*exec.Cmd).Start` returned an error. -/
  startFailed : Bool
  /-- Exit state of the process once `Wait` returns (meaningful only when the
  spawn succeeded). -/
  status : ExitStatus
  /-- `ctx.Err() != nil` at the point where the run checks it after `Wait`. -/
  ctxCancelled : Bool
  /-- Combined stdout/stderr bytes captured into the buffer. -/
  output : String
deriving Repr, DecidableEq

/-- The `(output, exitCode, err)` triple returned by `Run`/`RunWithStdin`. -/
structure RunResult where
  output : String
  exitCode : Int
  err : Option RunError
deriving Repr, DecidableEq

/-- Models `(*linuxSandbox).RunWithStdin` from linux.go: dry-run short-circuit,
spawn, wait, exit-code extraction from the process state, and the final check
`if ctx.Err() != nil` that makes cancellation win over the wait error.
The wait error is `nil` exactly for a zero exit, and the Go `*exec.ExitError`
for a non-zero exit or a signal. -/
def linuxSandbox.RunWithStdin (s : linuxSandbox) (cmd : String) (ev : RunEvents) : RunResult :=
  let args := s.buildArgs cmd
  if s.cfg.DryRun then
    { output := s.dryRunOutput args, exitCode := 0, err := none }
  else if ev.startFailed then
    { output := "", exitCode := 0, err := some .spawnFailed }
  else
    let exitCode := exitCodeOfStatus ev.status
    let waitErr : Option RunError :=
      if ev.status = .exited 0 then none else some (.waitFailed ev.status)
    if ev.ctxCancelled then
      { output := ev.output, exitCode := exitCode, err := some .ctxDone }
    else
      { output := ev.output, exitCode := exitCode, err := waitErr }

/-- One line of the sandbox-exec profile, one constructor per distinct
`WriteString` shape in `(*darwinSandbox).generateProfile` (darwin backend).
`renderProfLine` below gives each constructor its exact source text. -/
inductive ProfLine where
  | version1
  | allowDefault
  | allowNetwork
  | denyFileWriteAll
  | allowFileWrite (path : String)
  | denyFileReadAll
  | allowFileRead (path : String)
  | denyFileRead (path : String)
deriving Repr, DecidableEq

/-- Escape of one character under Go `%q` (quotes and backslashes; the control
character escapes of `%q` never arise for the path strings compiled here). -/
def goQuoteChar (c : Char) : List Char :=
  if c = '"' || c = '\\' then ['\\', c] else [c]

/-- Models Go `fmt.Sprintf("%q", sIn)` for printable strings. -/
def goQuote (sIn : String) : String :=
  "\"" ++ String.mk (sIn.data.flatMap goQuoteChar) ++ "\""

/-- The exact profile text each `ProfLine` stands for (sans trailing newline). -/
def renderProfLine : ProfLine → String
  | .version1 => "(version 1)"
  | .allowDefault => "(allow default)"
  | .allowNetwork => "(allow network*)"
  | .denyFileWriteAll => "(deny file-write*)"
  | .allowFileWrite path => "(allow file-write* (subpath " ++ goQuote path ++ "))"
  | .denyFileReadAll => "(deny file-read*)"
  | .allowFileRead path => "(allow file-read* (subpath " ++ goQuote path ++ "))"
  | .denyFileRead path => "(deny file-read* (subpath " ++ goQuote path ++ "))"

/-- Models the `darwinSandbox` struct (profile backend). -/
structure darwinSandbox where
  cfg : Config

/-- The fixed allowlist of system paths the wildcard deny-read branch carves
out, in source order. -/
def wildcardReadAllowPaths : List String :=
  ["/usr", "/bin", "/sbin", "/var", "/private", "/dev", "/System", "/Library"]

/-- Models `(*darwinSandbox).generateProfile`, `WriteString` for `WriteString`:
header, then the write section (skipped entirely when allow-write holds the
wildcard, otherwise a blanket write deny followed by one allow per
non-deny-read allow-write path), then the read section (blanket read deny plus
the system carve-outs when deny-read holds the wildcard, otherwise one read
deny per deny-read path). -/
def darwinSandbox.generateProfile (s : darwinSandbox) : List ProfLine :=
  [.version1, .allowDefault, .allowNetwork]
    ++ (if HasWildcard s.cfg.AllowWrite then []
        else ProfLine.denyFileWriteAll ::
          (s.cfg.AllowWrite.filter (fun path => !pathInDenyRead path s.cfg.DenyRead)).map
            ProfLine.allowFileWrite)
    ++ (if HasWildcard s.cfg.DenyRead then
          ProfLine.denyFileReadAll :: wildcardReadAllowPaths.map ProfLine.allowFileRead
        else s.cfg.DenyRead.map ProfLine.denyFileRead)

/-- The profile document string the darwin backend stores (`s.profile`). -/
def darwinSandbox.profileText (s : darwinSandbox) : String :=
  String.join ((s.generateProfile).map (fun l => renderProfLine l ++ "\n"))

/-- Models `(*darwinSandbox).dryRunOutput`. -/
def darwinSandbox.dryRunOutput (s : darwinSandbox) (cmd : String) : String :=
  "sandbox-exec -p '" ++ s.profileText ++ "' sh -c '" ++ cmd ++ "'"

/-- Models `(*darwinSandbox).RunWithStdin`: dry-run short-circuit, else
`CombinedOutput` whose error is the spawn error or the wait error (context
cancellation surfaces here as a signal-terminated exit status, since
`exec.CommandContext` kills the process and `CombinedOutput` then reports the
resulting `*exec.ExitError`). With a failed spawn the process state is nil and
the exit code stays 0. -/
def darwinSandbox.RunWithStdin (s : darwinSandbox) (cmd : String) (ev : RunEvents) : RunResult :=
  if s.cfg.DryRun then
    { output := s.dryRunOutput cmd, exitCode := 0, err := none }
  else if ev.startFailed then
    { output := "", exitCode := 0, err := some .spawnFailed }
  else
    { output := ev.output
      exitCode := exitCodeOfStatus ev.status
      err := if ev.status = .exited 0 then none else some (.waitFailed ev.status) }

/-- Why `filepath.EvalSymlinks` failed, as far as the Go code distinguishes it:
`os.IsNotExist(err)` versus anything else (permissions, loops, non-directory
path components, ...). -/
inductive FsError where
  | notExist
  | other
deriving Repr, DecidableEq

/-- The errors `expandPath`/`expandPathNoResolve` can return. -/
inductive PathError where
  /-- `cannot expand ~`: `os.UserHomeDir` failed for a `~/`-prefixed path. -/
  | invalidHome
  /-- `filepath.EvalSymlinks` failed with an error other than not-exist. -/
  | symlinkFailure
deriving Repr, DecidableEq

/-- The pieces of operating-system state that path resolution reads:
the home directory (`os.UserHomeDir`, which may fail), the working directory
(`os.Getwd`, used by `filepath.Abs`), and symlink resolution
(`filepath.EvalSymlinks`), which either yields the resolved path or fails. -/
structure Host where
  homeDir : Option String
  cwd : String
  evalSymlinks : String → Except FsError String

/-- Split a character list at every `/`, keeping empty components: the
separator split `strings.Split(path, "/")` underlying path cleaning. -/
def splitSlash : List Char → List (List Char)
  | [] => [[]]
  | c :: rest =>
    if c = '/' then [] :: splitSlash rest
    else
      match splitSlash rest with
      | [] => [[c]]
      | h :: t => (c :: h) :: t

/-- Models `filepath.Clean` (unix rules): drop empty and `.` components,
resolve `..` against preceding components, keep leading `..` components of a
relative path, and map an emptied path to `/` or `.`. -/
def goClean (path : String) : String :=
  if path = "" then "." else
  let rooted := goHasPrefix path "/"
  let comps := ((splitSlash path.data).map String.mk).filter (fun c => c ≠ "" && c ≠ ".")
  let stacked := comps.foldl
    (fun (acc : List String) c =>
      if c = ".." then
        match acc with
        | [] => if rooted then [] else [".."]
        | a :: rest => if a = ".." then c :: acc else rest
      else c :: acc) []
  let comps' := stacked.reverse
  if comps'.isEmpty then (if rooted then "/" else ".")
  else (if rooted then "/" else "") ++ String.intercalate "/" comps'

/-- Models `filepath.Join(a, b)` for the two-argument uses in the source. -/
def goJoin (a b : String) : String :=
  goClean (a ++ "/" ++ b)

/-- Models `filepath.IsAbs` on unix. -/
def goIsAbs (path : String) : Bool := goHasPrefix path "/"

/-- Models `filepath.Abs` (with `os.Getwd` supplied by the host model). -/
def goAbs (host : Host) (path : String) : String :=
  if goIsAbs path then goClean path else goJoin host.cwd path

/-- Models `expandPathNoResolve`: substitute the home directory for a leading
`~/`, then make the path absolute. Fails only when the home directory cannot
be determined for a `~/`-prefixed path. -/
def expandPathNoResolve (host : Host) (p : String) : Except PathError String :=
  if goHasPrefix p "~/" then
    match host.homeDir with
    | none => .error .invalidHome
    | some home => .ok (goAbs host (goJoin home (p.drop 2)))
  else
    .ok (goAbs host p)

/-- Models `expandPath`: expand and absolutize, then resolve symlinks; a
not-exist failure of symlink resolution returns the unresolved absolute path
with no error, while any other symlink-resolution failure is an error. -/
def expandPath (host : Host) (p : String) : Except PathError String :=
  match expandPathNoResolve host p with
  | .error e => .error e
  | .ok p' =>
    match host.evalSymlinks p' with
    | .ok resolved => .ok resolved
    | .error .notExist => .ok p'
    | .error .other => .error .symlinkFailure

/-- The parent process environment (`os.Environ` order), one `(key, value)`
pair per variable; `os.LookupEnv` is first-match lookup in it. -/
def EnvList := List (String × String)

/-- Models `os.LookupEnv` over the explicit environment. -/
def lookupEnv (env : List (String × String)) (key : String) : Option String :=
  (env.find? (fun kv => kv.1 == key)).map (fun kv => kv.2)

/-- One `os.Environ()` entry for a pair. -/
def envEntry (kv : String × String) : String := kv.1 ++ "=" ++ kv.2

/-- Models `strings.SplitN(e, "=", 2)[0]`: the part of `e` before the first
`=`, or all of `e` when it has none. -/
def goEnvKey (e : String) : String :=
  String.mk (e.data.takeWhile (fun c => !(c == '=')))

/-- The essential variables buildEnv always tries to include in clean mode,
in source order. -/
def essentialVars : List String := ["PATH", "HOME", "USER", "TERM"]

/-- The duplicate check inside buildEnv's essential-vars loop:
`strings.HasPrefix(e, key+"=")` over the entries added so far. -/
def envHasKey (acc : List String) (key : String) : Bool :=
  acc.any (fun e => goHasPrefix e (key ++ "="))

/-- Models `buildEnv` from the sandbox package, with the ambient environment
passed explicitly. Clean mode: fold the allowlist, copying each key set in the
parent environment, then fold the essential variables, copying each one that is
set and not already present. Denylist mode: keep every `os.Environ()` entry
whose key is not in the denylist set. -/
def buildEnv (cfg : Config) (env : List (String × String)) : List String :=
  if cfg.CleanEnv then
    let allowed := cfg.EnvAllowlist.foldl
      (fun (acc : List String) key =>
        match lookupEnv env key with
        | some val => acc ++ [key ++ "=" ++ val]
        | none => acc) []
    essentialVars.foldl
      (fun (acc : List String) key =>
        match lookupEnv env key with
        | some val => if envHasKey acc key then acc else acc ++ [key ++ "=" ++ val]
        | none => acc) allowed
  else
    (env.map envEntry).filter (fun e => !cfg.EnvDenylist.contains (goEnvKey e))

/-- Spec-side description of clean mode's first stage: the allowlisted keys
that are set in the parent environment, as entries, in allowlist order. -/
def cleanEnvAllowlistPart (cfg : Config) (env : List (String × String)) : List String :=
  cfg.EnvAllowlist.filterMap
    (fun key => (lookupEnv env key).map (fun val => key ++ "=" ++ val))

/-- Spec-side description of clean mode's second stage: whichever of the
essential variables are set in the parent environment and whose key was not
already added by the allowlist. -/
def cleanEnvEssentialPart (cfg : Config) (env : List (String × String)) : List String :=
  essentialVars.filterMap
    (fun key =>
      match lookupEnv env key with
      | some val => if key ∈ cfg.EnvAllowlist then none else some (key ++ "=" ++ val)
      | none => none)

/-- Proof-side abbreviation: the allowlisted keys set in the parent
environment, paired with their values, in allowlist order (the pairs behind
`cleanEnvAllowlistPart`). -/
def envPairs (cfg : Config) (env : List (String × String)) : List (String × String) :=
  cfg.EnvAllowlist.filterMap (fun key => (lookupEnv env key).map (fun val => (key, val)))

/-! ## Helper lemmas -/

theorem goHasPrefix_append_self (a b : String) : goHasPrefix (a ++ b) a = true := by
  simp only [goHasPrefix, String.data_append]
  exact List.isPrefixOf_iff_prefix.mpr (List.prefix_append a.data b.data)

theorem ne_of_goHasPrefix (q t : String) (hq : goHasPrefix q "/" = true)
    (ht : goHasPrefix t "/" = false) : q ≠ t := by
  intro he
  rw [he, ht] at hq
  exact Bool.false_ne_true hq

theorem mem_prefix_of_eq_append {α : Type} (l₁ l₂ pre post : List α) (x d : α)
    (h : l₁ ++ l₂ = pre ++ x :: post) (hx : x ∉ l₁) (hd : d ∈ l₁) : d ∈ pre := by
  rcases le_or_lt l₁.length pre.length with hlen | hlen
  · have htake : l₁ = pre.take l₁.length := by
      calc l₁ = (l₁ ++ l₂).take l₁.length := by simp
        _ = (pre ++ x :: post).take l₁.length := by rw [h]
        _ = pre.take l₁.length := List.take_append_of_le_length hlen
    exact List.take_subset _ _ (htake ▸ hd)
  · exfalso
    apply hx
    have hdrop : l₁.drop pre.length ++ l₂ = x :: post := by
      calc l₁.drop pre.length ++ l₂ = (l₁ ++ l₂).drop pre.length := by
            rw [List.drop_append_of_le_length (Nat.le_of_lt hlen)]
        _ = (pre ++ x :: post).drop pre.length := by rw [h]
        _ = x :: post := by simp
    cases hd' : l₁.drop pre.length with
    | nil =>
      have := List.drop_eq_nil_iff.mp hd'
      omega
    | cons a t =>
      rw [hd'] at hdrop
      have hax : a = x := by
        have := congrArg List.head? hdrop
        simpa using this
      have : a ∈ l₁ := List.drop_subset _ _ (hd' ▸ List.mem_cons_self a t)
      exact hax ▸ this

theorem containsSequence_flatMap_bind (p : String) (ws rest : List String)
    (hws : ∀ q ∈ ws, goHasPrefix q "/" = true) (hnotin : p ∉ ws)
    (hrest : containsSequence rest ["--bind", p, p] = false) :
    containsSequence (ws.flatMap (fun q => ["--bind", q, q]) ++ rest) ["--bind", p, p]
      = false := by
  revert hws hnotin
  induction ws with
  | nil => intro _ _; simpa using hrest
  | cons q ws ih =>
    intro hws hnotin
    have hq : goHasPrefix q "/" = true := hws q (List.mem_cons_self q ws)
    have hqbind : (("--bind" : String) == q) = false :=
      beq_eq_false_iff_ne.mpr (Ne.symm (ne_of_goHasPrefix q "--bind" hq (by decide)))
    have hpq : (p == q) = false :=
      beq_eq_false_iff_ne.mpr (fun h => hnotin (h ▸ List.mem_cons_self q ws))
    have htail : containsSequence (ws.flatMap (fun x => ["--bind", x, x]) ++ rest)
        ["--bind", p, p] = false :=
      ih (fun x hx => hws x (List.mem_cons_of_mem q hx))
        (fun hx => hnotin (List.mem_cons_of_mem q hx))
    simp [containsSequence, List.isPrefixOf, hqbind, hpq]
    simpa using htail

theorem containsSequence_flatMap_tmpfs (p : String) (ds rest : List String)
    (hds : ∀ q ∈ ds, goHasPrefix q "/" = true)
    (hrest : containsSequence rest ["--bind", p, p] = false) :
    containsSequence (ds.flatMap (fun q => ["--tmpfs", q]) ++ rest) ["--bind", p, p]
      = false := by
  revert hds
  induction ds with
  | nil => intro _; simpa using hrest
  | cons d ds ih =>
    intro hds
    have hd : goHasPrefix d "/" = true := hds d (List.mem_cons_self d ds)
    have hdbind : (("--bind" : String) == d) = false :=
      beq_eq_false_iff_ne.mpr (Ne.symm (ne_of_goHasPrefix d "--bind" hd (by decide)))
    have htail : containsSequence (ds.flatMap (fun x => ["--tmpfs", x]) ++ rest)
        ["--bind", p, p] = false :=
      ih (fun x hx => hds x (List.mem_cons_of_mem d hx))
    simp +decide [containsSequence, List.isPrefixOf, hdbind]
    simpa using htail

theorem containsSequence_fixed_tail (p wd cmd : String) (hp : goHasPrefix p "/" = true) :
    containsSequence ["--dev", "/dev", "--proc", "/proc", "--chdir", wd, "sh", "-c", cmd]
      ["--bind", p, p] = false := by
  have hsh : (p == "sh") = false :=
    beq_eq_false_iff_ne.mpr (ne_of_goHasPrefix p "sh" hp (by decide))
  simp +decide [containsSequence, List.isPrefixOf, hsh]

theorem containsSequence_front (p : String) (mid : List String)
    (h : containsSequence mid ["--bind", p, p] = false) :
    containsSequence (["--share-net", "--die-with-parent", "--ro-bind", "/", "/"] ++ mid)
      ["--bind", p, p] = false := by
  simp +decide [containsSequence, List.isPrefixOf, h]

theorem takeWhile_ne_eq_append (k v : List Char) (hk : ∀ c ∈ k, c ≠ '=') :
    (k ++ '=' :: v).takeWhile (fun c => !(c == '=')) = k := by
  induction k with
  | nil => simp [List.takeWhile]
  | cons c k' ih =>
    have hc : c ≠ '=' := hk c (List.mem_cons_self c k')
    simp [List.takeWhile_cons, hc, ih (fun x hx => hk x (List.mem_cons_of_mem c hx))]

theorem eqSign_data : ("=" : String).data = ['='] := rfl

theorem goEnvKey_entry (k v : String) (hk : ∀ c ∈ k.data, c ≠ '=') :
    goEnvKey (k ++ "=" ++ v) = k := by
  have hdata : (k ++ "=" ++ v).data = k.data ++ '=' :: v.data := by
    rw [String.data_append, String.data_append, eqSign_data]
    simp
  rw [goEnvKey, hdata, takeWhile_ne_eq_append k.data v.data hk]

theorem key_prefix_iff : ∀ (a b v : List Char), (∀ c ∈ a, c ≠ '=') → (∀ c ∈ b, c ≠ '=') →
    ((a ++ ['=']).isPrefixOf (b ++ '=' :: v) = true ↔ a = b) := by
  intro a
  induction a with
  | nil =>
    intro b v _ hb
    cases b with
    | nil => simp [List.isPrefixOf]
    | cons c b' =>
      have hc : c ≠ '=' := hb c (List.mem_cons_self c b')
      simp [List.isPrefixOf, Ne.symm hc]
  | cons c a' ih =>
    intro b v ha hb
    have hc : c ≠ '=' := ha c (List.mem_cons_self c a')
    cases b with
    | nil => simp [List.isPrefixOf, hc]
    | cons c' b' =>
      have hrec := ih b' v (fun x hx => ha x (List.mem_cons_of_mem c hx))
        (fun x hx => hb x (List.mem_cons_of_mem c' hx))
      simp [List.isPrefixOf, Bool.and_eq_true, beq_iff_eq, hrec]

theorem goHasPrefix_entry_iff (k k' v' : String) (hk : ∀ c ∈ k.data, c ≠ '=')
    (hk' : ∀ c ∈ k'.data, c ≠ '=') :
    (goHasPrefix (k' ++ "=" ++ v') (k ++ "=") = true) ↔ k = k' := by
  have hpre : (k ++ "=").data = k.data ++ ['='] := by
    rw [String.data_append, eqSign_data]
  have hent : (k' ++ "=" ++ v').data = k'.data ++ '=' :: v'.data := by
    rw [String.data_append, String.data_append, eqSign_data]
    simp
  rw [goHasPrefix, hpre, hent, key_prefix_iff k.data k'.data v'.data hk hk']
  constructor
  · intro h
    exact congrArg String.mk h
  · intro h
    rw [h]

theorem allow_foldl_eq (env : List (String × String)) (keys : List String)
    (init : List String) :
    keys.foldl
        (fun (acc : List String) key =>
          match lookupEnv env key with
          | some val => acc ++ [key ++ "=" ++ val]
          | none => acc) init
      = init ++ keys.filterMap
          (fun key => (lookupEnv env key).map (fun val => key ++ "=" ++ val)) := by
  induction keys generalizing init with
  | nil => simp
  | cons k ks ih =>
    cases h : lookupEnv env k with
    | none => simp [List.foldl_cons, h, ih]
    | some val => simp [List.foldl_cons, h, ih, List.append_assoc]

theorem ess_foldl_eq (env : List (String × String)) (ks : List String)
    (hks : ∀ k ∈ ks, ∀ c ∈ k.data, c ≠ '=') (hnd : ks.Nodup)
    (pacc : List (String × String))
    (hpacc : ∀ kv ∈ pacc, ∀ c ∈ (kv : String × String).1.data, c ≠ '=') :
    ks.foldl
        (fun (acc : List String) key =>
          match lookupEnv env key with
          | some val => if envHasKey acc key then acc else acc ++ [key ++ "=" ++ val]
          | none => acc) (pacc.map envEntry)
      = pacc.map envEntry
        ++ ks.filterMap
            (fun key =>
              match lookupEnv env key with
              | some val =>
                if pacc.any (fun kv => kv.1 == key) then none
                else some (key ++ "=" ++ val)
              | none => none) := by
  induction ks generalizing pacc with
  | nil => simp
  | cons k ks ih =>
    have hk : ∀ c ∈ k.data, c ≠ '=' := hks k (List.mem_cons_self k ks)
    have hks' : ∀ x ∈ ks, ∀ c ∈ x.data, c ≠ '=' :=
      fun x hx => hks x (List.mem_cons_of_mem k hx)
    have hnd' : ks.Nodup := (List.nodup_cons.mp hnd).2
    have hknotin : k ∉ ks := (List.nodup_cons.mp hnd).1
    cases hlook : lookupEnv env k with
    | none =>
      simp only [List.foldl_cons, hlook, List.filterMap_cons]
      exact ih hks' hnd' pacc hpacc
    | some val =>
      by_cases hin : pacc.any (fun kv => kv.1 == k) = true
      · have henv : envHasKey (pacc.map envEntry) k = true := by
          obtain ⟨kv, hkv, heq⟩ := List.any_eq_true.mp hin
          refine List.any_eq_true.mpr ⟨envEntry kv, List.mem_map_of_mem envEntry hkv, ?_⟩
          exact (goHasPrefix_entry_iff k kv.1 kv.2 hk (hpacc kv hkv)).mpr
            (beq_iff_eq.mp heq).symm
        simp only [List.foldl_cons, hlook, henv, if_true, List.filterMap_cons, hin]
        exact ih hks' hnd' pacc hpacc
      · have hin' : pacc.any (fun kv => kv.1 == k) = false :=
          Bool.eq_false_iff.mpr hin
        have henv : envHasKey (pacc.map envEntry) k = false := by
          rw [Bool.eq_false_iff]
          intro henv'
          obtain ⟨e, he, hpre⟩ := List.any_eq_true.mp henv'
          obtain ⟨kv, hkv, hkve⟩ := List.mem_map.mp he
          apply hin
          refine List.any_eq_true.mpr ⟨kv, hkv, ?_⟩
          have : k = kv.1 := by
            apply (goHasPrefix_entry_iff k kv.1 kv.2 hk (hpacc kv hkv)).mp
            rw [← hkve] at hpre
            exact hpre
          exact beq_iff_eq.mpr this.symm
        have hstep : (pacc.map envEntry) ++ [k ++ "=" ++ val]
            = (pacc ++ [(k, val)]).map envEntry := by
          simp [envEntry]
        have hpacc' : ∀ kv ∈ pacc ++ [(k, val)],
            ∀ c ∈ (kv : String × String).1.data, c ≠ '=' := by
          intro kv hkv
          rcases List.mem_append.mp hkv with h | h
          · exact hpacc kv h
          · simp at h
            rw [h]
            exact hk
        have hcong : ks.filterMap
              (fun key =>
                match lookupEnv env key with
                | some v =>
                  if (pacc ++ [(k, val)]).any (fun kv => kv.1 == key) then none
                  else some (key ++ "=" ++ v)
                | none => none)
            = ks.filterMap
              (fun key =>
                match lookupEnv env key with
                | some v =>
                  if pacc.any (fun kv => kv.1 == key) then none
                  else some (key ++ "=" ++ v)
                | none => none) := by
          apply List.filterMap_congr
          intro key hkey
          have hne : (k == key) = false :=
            beq_eq_false_iff_ne.mpr (fun h => hknotin (h ▸ hkey))
          cases hl : lookupEnv env key with
          | none => rfl
          | some v =>
            have : (pacc ++ [(k, val)]).any (fun kv => kv.1 == key)
                = pacc.any (fun kv => kv.1 == key) := by
              simp [List.any_append, hne]
            simp only [this]
        simp only [List.foldl_cons, hlook, henv, if_false, Bool.false_eq_true,
          List.filterMap_cons, hin', hstep]
        rw [ih hks' hnd' (pacc ++ [(k, val)]) hpacc', hcong]
        simp [envEntry, List.append_assoc]

theorem envPairs_keys (cfg : Config) (env : List (String × String))
    (hallow : ∀ k ∈ cfg.EnvAllowlist, ∀ c ∈ k.data, c ≠ '=') :
    ∀ kv ∈ envPairs cfg env, ∀ c ∈ (kv : String × String).1.data, c ≠ '=' := by
  intro kv hkv
  obtain ⟨key, hkey, hmap⟩ := List.mem_filterMap.mp hkv
  cases hl : lookupEnv env key with
  | none => rw [hl] at hmap; simp at hmap
  | some val =>
    rw [hl] at hmap
    simp at hmap
    rw [← hmap]
    exact hallow key hkey

theorem allowPart_eq (cfg : Config) (env : List (String × String)) :
    cleanEnvAllowlistPart cfg env = (envPairs cfg env).map envEntry := by
  unfold cleanEnvAllowlistPart envPairs
  rw [List.map_filterMap]
  apply List.filterMap_congr
  intro key _
  cases hl : lookupEnv env key <;> simp [hl, envEntry]

theorem buildEnv_clean_decomp (cfg : Config) (env : List (String × String))
    (hclean : cfg.CleanEnv = true)
    (hallow : ∀ k ∈ cfg.EnvAllowlist, ∀ c ∈ k.data, c ≠ '=') :
    buildEnv cfg env
      = (envPairs cfg env).map envEntry
        ++ essentialVars.filterMap
            (fun key =>
              match lookupEnv env key with
              | some val =>
                if (envPairs cfg env).any (fun kv => kv.1 == key) then none
                else some (key ++ "=" ++ val)
              | none => none) := by
  have h1 : buildEnv cfg env
      = essentialVars.foldl
          (fun (acc : List String) key =>
            match lookupEnv env key with
            | some val => if envHasKey acc key then acc else acc ++ [key ++ "=" ++ val]
            | none => acc)
          (cleanEnvAllowlistPart cfg env) := by
    simp only [buildEnv, hclean, if_true]
    rw [allow_foldl_eq env cfg.EnvAllowlist []]
    rfl
  rw [h1, allowPart_eq]
  exact ess_foldl_eq env essentialVars (by decide) (by decide) (envPairs cfg env)
    (envPairs_keys cfg env hallow)

theorem essPart_match (cfg : Config) (env : List (String × String)) :
    essentialVars.filterMap
        (fun key =>
          match lookupEnv env key with
          | some val =>
            if (envPairs cfg env).any (fun kv => kv.1 == key) then none
            else some (key ++ "=" ++ val)
          | none => none)
      = cleanEnvEssentialPart cfg env := by
  unfold cleanEnvEssentialPart
  apply List.filterMap_congr
  intro key _
  cases hl : lookupEnv env key with
  | none => simp [hl]
  | some val =>
    by_cases hmem : key ∈ cfg.EnvAllowlist
    · have hpair : (key, val) ∈ envPairs cfg env :=
        List.mem_filterMap.mpr ⟨key, hmem, by rw [hl]; rfl⟩
      have hany : (envPairs cfg env).any (fun kv => kv.1 == key) = true :=
        List.any_eq_true.mpr ⟨(key, val), hpair, by simp⟩
      simp [hl, hany, hmem]
    · have hany : (envPairs cfg env).any (fun kv => kv.1 == key) = false := by
        rw [Bool.eq_false_iff]
        intro h
        obtain ⟨kv, hkv, heq⟩ := List.any_eq_true.mp h
        obtain ⟨k', hk', hmap⟩ := List.mem_filterMap.mp hkv
        cases hlk : lookupEnv env k' with
        | none => rw [hlk] at hmap; simp at hmap
        | some v' =>
          rw [hlk] at hmap
          simp at hmap
          apply hmem
          have hkey' : kv.1 = key := beq_iff_eq.mp heq
          rw [← hmap] at hkey'
          exact hkey' ▸ hk'
      simp [hl, hany, hmem]

theorem allowKeys_eq (cfg : Config) (env : List (String × String))
    (hallow : ∀ k ∈ cfg.EnvAllowlist, ∀ c ∈ k.data, c ≠ '=') :
    (cleanEnvAllowlistPart cfg env).map goEnvKey
      = cfg.EnvAllowlist.filterMap (fun key => (lookupEnv env key).map (fun _ => key)) := by
  unfold cleanEnvAllowlistPart
  rw [List.map_filterMap]
  apply List.filterMap_congr
  intro key hkey
  cases hl : lookupEnv env key with
  | none => simp [hl]
  | some val => simp [hl, goEnvKey_entry key val (hallow key hkey)]

theorem essKeys_eq (cfg : Config) (env : List (String × String)) :
    (cleanEnvEssentialPart cfg env).map goEnvKey
      = essentialVars.filterMap
          (fun key =>
            match lookupEnv env key with
            | some _ => if key ∈ cfg.EnvAllowlist then none else some key
            | none => none) := by
  have hessne : ∀ k ∈ essentialVars, ∀ c ∈ k.data, c ≠ '=' := by decide
  unfold cleanEnvEssentialPart
  rw [List.map_filterMap]
  apply List.filterMap_congr
  intro key hkey
  cases hl : lookupEnv env key with
  | none => simp [hl]
  | some val =>
    by_cases hmem : key ∈ cfg.EnvAllowlist <;>
      simp [hl, hmem, goEnvKey_entry key val (hessne key hkey)]

/-! ## Claim theorems -/

/-- Claim C4: the deny-read containment check classifies `P` as under `D` iff
`P = D` or `P` starts with `D` followed by the path separator; a sibling
directory sharing only a string prefix (`/home/user/.sshkeys` against
deny entry `/home/user/.ssh`) is never classified deny-read, while `D` itself
and every proper subpath of `D` are. -/
theorem C4_separator_boundary :
    (∀ (P : String) (ds : List String),
        pathInDenyRead P ds = true ↔
          ∃ D ∈ ds, P = D ∨ goHasPrefix P (D ++ pathSeparator) = true)
    ∧ (∀ D rest : String, pathInDenyRead (D ++ pathSeparator ++ rest) [D] = true)
    ∧ (∀ D : String, pathInDenyRead D [D] = true)
    ∧ pathInDenyRead "/home/user/.sshkeys" ["/home/user/.ssh"] = false
    ∧ pathInDenyRead "/home/user/.ssh/id_rsa" ["/home/user/.ssh"] = true := by
  refine ⟨?_, ?_, ?_, by decide, by decide⟩
  · intro P ds
    simp [pathInDenyRead, List.any_eq_true, Bool.or_eq_true, beq_iff_eq]
  · intro D rest
    simp only [pathInDenyRead, List.any_cons, List.any_nil, Bool.or_false, Bool.or_eq_true,
      beq_iff_eq]
    exact Or.inr (goHasPrefix_append_self (D ++ pathSeparator) rest)
  · intro D
    simp [pathInDenyRead]

/-- Claim C2, counterexample: a run of the namespace backend in which the
sandboxed command exits with code 3 and neither an infrastructure failure nor
a cancellation occurred nevertheless returns a non-nil error (the Go wait
error), not the nil error the claim demands. -/
theorem C2_counterexample :
    (linuxSandbox.RunWithStdin
        { cfg := { Workdir := "/w", AllowWrite := ["/w"], DenyRead := [], CleanEnv := false,
                   EnvAllowlist := [], EnvDenylist := [], DryRun := false },
          bwrapBin := "/usr/bin/bwrap" }
        "false"
        { startFailed := false, status := .exited 3, ctxCancelled := false, output := "" }).exitCode
        = 3
    ∧ (linuxSandbox.RunWithStdin
        { cfg := { Workdir := "/w", AllowWrite := ["/w"], DenyRead := [], CleanEnv := false,
                   EnvAllowlist := [], EnvDenylist := [], DryRun := false },
          bwrapBin := "/usr/bin/bwrap" }
        "false"
        { startFailed := false, status := .exited 3, ctxCancelled := false,
          output := "" }).err ≠ none := by
  refine ⟨rfl, ?_⟩
  intro h
  simp [linuxSandbox.RunWithStdin] at h

/-- Claim C2 (amended): the returned error is nil exactly when the run was a
dry run, or the spawn succeeded, no cancellation was observed, and the command
exited with code 0. A normal non-zero exit (or a signal-terminated exit) is
returned as the exit code together with the non-nil Go wait error, on both
backends; the caller distinguishes infrastructure failures by the combination
of the error with an exit code of 0, not by error alone. -/
theorem C2_error_characterization :
    ∀ (s : linuxSandbox) (d : darwinSandbox) (cmd : String) (ev : RunEvents),
      ((s.RunWithStdin cmd ev).err = none ↔
        (s.cfg.DryRun = true
          ∨ (ev.startFailed = false ∧ ev.ctxCancelled = false ∧ ev.status = .exited 0)))
      ∧ ((d.RunWithStdin cmd ev).err = none ↔
        (d.cfg.DryRun = true ∨ (ev.startFailed = false ∧ ev.status = .exited 0)))
      ∧ (∀ code : Nat, s.cfg.DryRun = false → ev.startFailed = false →
          ev.ctxCancelled = false → ev.status = .exited code →
          s.RunWithStdin cmd ev
            = { output := ev.output, exitCode := (code : Int),
                err := if ev.status = .exited 0 then none
                       else some (.waitFailed ev.status) }) := by
  intro s d cmd ev
  refine ⟨?_, ?_, ?_⟩
  · by_cases hdry : s.cfg.DryRun
    · simp [linuxSandbox.RunWithStdin, hdry]
    · by_cases hstart : ev.startFailed
      · simp [linuxSandbox.RunWithStdin, hdry, hstart]
      · by_cases hctx : ev.ctxCancelled
        · simp [linuxSandbox.RunWithStdin, hdry, hstart, hctx]
        · by_cases hst : ev.status = .exited 0 <;>
            simp [linuxSandbox.RunWithStdin, hdry, hstart, hctx, hst]
  · by_cases hdry : d.cfg.DryRun
    · simp [darwinSandbox.RunWithStdin, hdry]
    · by_cases hstart : ev.startFailed
      · simp [darwinSandbox.RunWithStdin, hdry, hstart]
      · by_cases hst : ev.status = .exited 0 <;>
          simp [darwinSandbox.RunWithStdin, hdry, hstart, hst]
  · intro code hdry hstart hctx hst
    simp [linuxSandbox.RunWithStdin, hdry, hstart, hctx, hst, exitCodeOfStatus]

/-- Witness for the amended C2 theorem at a concrete run: dry-run off, spawn
succeeded, no cancellation, exit code 5. -/
theorem C2_error_characterization_witness :
    linuxSandbox.RunWithStdin
        { cfg := { Workdir := "/w", AllowWrite := ["/w"], DenyRead := [], CleanEnv := false,
                   EnvAllowlist := [], EnvDenylist := [], DryRun := false },
          bwrapBin := "/usr/bin/bwrap" }
        "false"
        { startFailed := false, status := .exited 5, ctxCancelled := false, output := "out" }
      = { output := "out", exitCode := 5,
          err := some (.waitFailed (.exited 5)) } := by
  have h := (C2_error_characterization
    { cfg := { Workdir := "/w", AllowWrite := ["/w"], DenyRead := [], CleanEnv := false,
               EnvAllowlist := [], EnvDenylist := [], DryRun := false },
      bwrapBin := "/usr/bin/bwrap" }
    { cfg := { Workdir := "/w", AllowWrite := ["/w"], DenyRead := [], CleanEnv := false,
               EnvAllowlist := [], EnvDenylist := [], DryRun := false } }
    "false"
    { startFailed := false, status := .exited 5, ctxCancelled := false,
      output := "out" }).2.2 5 rfl rfl rfl rfl
  simpa using h

/-- Claim C7: on the namespace backend, once cancellation is observed the
returned error is the context error, whatever the exit status of the process:
a racing natural exit (any exit code, or a signal) never replaces the
cancellation error. -/
theorem C7_cancellation_precedence :
    ∀ (s : linuxSandbox) (cmd : String) (ev : RunEvents),
      s.cfg.DryRun = false → ev.startFailed = false → ev.ctxCancelled = true →
      (s.RunWithStdin cmd ev).err = some .ctxDone := by
  intro s cmd ev hdry hstart hctx
  simp [linuxSandbox.RunWithStdin, hdry, hstart, hctx]

/-- Witness for C7: cancellation observed while the child already exited
naturally with code 0; the error is still the context error. -/
theorem C7_cancellation_precedence_witness :
    (linuxSandbox.RunWithStdin
        { cfg := { Workdir := "/w", AllowWrite := ["/w"], DenyRead := [], CleanEnv := false,
                   EnvAllowlist := [], EnvDenylist := [], DryRun := false },
          bwrapBin := "/usr/bin/bwrap" }
        "sleep 10"
        { startFailed := false, status := .exited 0, ctxCancelled := true, output := "" }).err
      = some .ctxDone :=
  C7_cancellation_precedence
    { cfg := { Workdir := "/w", AllowWrite := ["/w"], DenyRead := [], CleanEnv := false,
               EnvAllowlist := [], EnvDenylist := [], DryRun := false },
      bwrapBin := "/usr/bin/bwrap" }
    "sleep 10"
    { startFailed := false, status := .exited 0, ctxCancelled := true, output := "" }
    rfl rfl rfl

/-- Claim C8, counterexample: a cancelled run (an infrastructure error per the
claim) whose process was killed by the termination signal returns exit code
`-1`, not the 0/unset exit code the claim asserts for every
infrastructure-error return. -/
theorem C8_counterexample :
    (linuxSandbox.RunWithStdin
        { cfg := { Workdir := "/w", AllowWrite := ["/w"], DenyRead := [], CleanEnv := false,
                   EnvAllowlist := [], EnvDenylist := [], DryRun := false },
          bwrapBin := "/usr/bin/bwrap" }
        "sleep 10"
        { startFailed := false, status := .signaled 9, ctxCancelled := true, output := "" }).err
      = some .ctxDone
    ∧ (linuxSandbox.RunWithStdin
        { cfg := { Workdir := "/w", AllowWrite := ["/w"], DenyRead := [], CleanEnv := false,
                   EnvAllowlist := [], EnvDenylist := [], DryRun := false },
          bwrapBin := "/usr/bin/bwrap" }
        "sleep 10"
        { startFailed := false, status := .signaled 9, ctxCancelled := true,
          output := "" }).exitCode ≠ 0 := by
  constructor
  · rfl
  · intro h
    simp [linuxSandbox.RunWithStdin, exitCodeOfStatus] at h

/-- Claim C8 (amended): a spawn failure returns its error with exit code 0,
so that case is distinguishable from a genuine zero exit only through the
error field; a cancellation error, however, is returned together with the
exit code extracted from the process state — `-1` when the process was killed
by the signal, or the natural exit code when the exit raced the cancellation —
so the caller must check the error field first rather than rely on the exit
code being 0 for every infrastructure failure. -/
theorem C8_infra_error_exit_codes :
    ∀ (s : linuxSandbox) (cmd : String) (ev : RunEvents), s.cfg.DryRun = false →
      (ev.startFailed = true →
        s.RunWithStdin cmd ev = { output := "", exitCode := 0, err := some .spawnFailed })
      ∧ (ev.startFailed = false → ev.ctxCancelled = true →
          (s.RunWithStdin cmd ev).err = some .ctxDone
          ∧ (s.RunWithStdin cmd ev).exitCode = exitCodeOfStatus ev.status)
      ∧ (∀ sig : Nat, exitCodeOfStatus (.signaled sig) = -1) := by
  intro s cmd ev hdry
  refine ⟨?_, ?_, fun sig => rfl⟩
  · intro hstart
    simp [linuxSandbox.RunWithStdin, hdry, hstart]
  · intro hstart hctx
    constructor <;> simp [linuxSandbox.RunWithStdin, hdry, hstart, hctx]

/-- Witness for the amended C8 theorem: a cancelled run with a racing natural
exit of code 7 returns the cancellation error with exit code 7. -/
theorem C8_infra_error_exit_codes_witness :
    (linuxSandbox.RunWithStdin
        { cfg := { Workdir := "/w", AllowWrite := ["/w"], DenyRead := [], CleanEnv := false,
                   EnvAllowlist := [], EnvDenylist := [], DryRun := false },
          bwrapBin := "/usr/bin/bwrap" }
        "sleep 10"
        { startFailed := false, status := .exited 7, ctxCancelled := true, output := "" }).err
      = some .ctxDone
    ∧ (linuxSandbox.RunWithStdin
        { cfg := { Workdir := "/w", AllowWrite := ["/w"], DenyRead := [], CleanEnv := false,
                   EnvAllowlist := [], EnvDenylist := [], DryRun := false },
          bwrapBin := "/usr/bin/bwrap" }
        "sleep 10"
        { startFailed := false, status := .exited 7, ctxCancelled := true,
          output := "" }).exitCode = 7 := by
  have h := (C8_infra_error_exit_codes
    { cfg := { Workdir := "/w", AllowWrite := ["/w"], DenyRead := [], CleanEnv := false,
               EnvAllowlist := [], EnvDenylist := [], DryRun := false },
      bwrapBin := "/usr/bin/bwrap" }
    "sleep 10"
    { startFailed := false, status := .exited 7, ctxCancelled := true, output := "" }
    rfl).2.1 rfl rfl
  exact ⟨h.1, h.2⟩

/-- Claim C5, code evaluated at the failing input: the namespace backend has
no wildcard branch at all — an allow-write list of `["*"]` compiles to the
literal writable bind `--bind * *`, and a deny-read list of `["*"]` compiles
to the literal `--tmpfs *`, exactly as an ordinary path entry would, while the
program's own usage text promises that `"*"` means "allow all writes". -/
theorem C5_wildcard_is_ordinary_path_on_linux :
    linuxSandbox.buildArgs
        { cfg := { Workdir := "/w", AllowWrite := ["*"], DenyRead := [], CleanEnv := false,
                   EnvAllowlist := [], EnvDenylist := [], DryRun := false },
          bwrapBin := "/usr/bin/bwrap" } "true"
      = ["--share-net", "--die-with-parent", "--ro-bind", "/", "/", "--bind", "*", "*",
         "--dev", "/dev", "--proc", "/proc", "--chdir", "/w", "sh", "-c", "true"]
    ∧ linuxSandbox.buildArgs
        { cfg := { Workdir := "/w", AllowWrite := [], DenyRead := ["*"], CleanEnv := false,
                   EnvAllowlist := [], EnvDenylist := [], DryRun := false },
          bwrapBin := "/usr/bin/bwrap" } "true"
      = ["--share-net", "--die-with-parent", "--ro-bind", "/", "/", "--tmpfs", "*",
         "--dev", "/dev", "--proc", "/proc", "--chdir", "/w", "sh", "-c", "true"] := by
  constructor <;> rfl

/-- Claim C9, counterexample: resolution of the absolute, existing-but-
unreadable path `/x` — no home-directory marker anywhere — fails when symlink
resolution fails with an error other than not-exist, so "fails only for a
marker-prefixed path whose home directory cannot be determined" is not what
the code does. -/
theorem C9_counterexample :
    expandPath
        { homeDir := some "/home/u", cwd := "/cwd", evalSymlinks := fun _ => .error .other }
        "/x"
      = .error .symlinkFailure
    ∧ goHasPrefix "/x" "~/" = false := by
  exact ⟨rfl, rfl⟩

/-- Claim C9 (amended): resolution of a path that does not exist (symlink
resolution fails with a not-exist error) returns the absolute-but-unresolved
form with no error; resolution fails exactly when the path begins with the
home-directory marker and the home directory cannot be determined, or when
symlink resolution fails with an error other than not-exist. -/
theorem C9_resolution_failure_modes :
    ∀ (host : Host) (p : String),
      (∀ p', expandPathNoResolve host p = .ok p' →
        host.evalSymlinks p' = .error .notExist → expandPath host p = .ok p')
      ∧ ((∃ e, expandPath host p = .error e) ↔
          (goHasPrefix p "~/" = true ∧ host.homeDir = none)
          ∨ (∃ p', expandPathNoResolve host p = .ok p'
              ∧ host.evalSymlinks p' = .error .other)) := by
  intro host p
  constructor
  · intro p' hok hnotexist
    simp [expandPath, hok, hnotexist]
  · by_cases hpre : goHasPrefix p "~/"
    · cases hhome : host.homeDir with
      | none =>
        constructor
        · intro _
          exact Or.inl ⟨hpre, rfl⟩
        · intro _
          exact ⟨.invalidHome, by simp [expandPath, expandPathNoResolve, hpre, hhome]⟩
      | some home =>
        have hok : expandPathNoResolve host p
            = .ok (goAbs host (goJoin home (p.drop 2))) := by
          simp [expandPathNoResolve, hpre, hhome]
        constructor
        · intro ⟨e, he⟩
          refine Or.inr ⟨goAbs host (goJoin home (p.drop 2)), hok, ?_⟩
          cases hev : host.evalSymlinks (goAbs host (goJoin home (p.drop 2))) with
          | ok r => simp [expandPath, hok, hev] at he
          | error fe =>
            cases fe with
            | notExist => simp [expandPath, hok, hev] at he
            | other => rfl
        · intro h
          rcases h with ⟨_, hnone⟩ | ⟨p', hp', hev⟩
          · simp [hhome] at hnone
          · rw [hok] at hp'
            cases hp'
            exact ⟨.symlinkFailure, by simp [expandPath, hok, hev]⟩
    · have hok : expandPathNoResolve host p = .ok (goAbs host p) := by
        simp [expandPathNoResolve, hpre]
      constructor
      · intro ⟨e, he⟩
        refine Or.inr ⟨goAbs host p, hok, ?_⟩
        cases hev : host.evalSymlinks (goAbs host p) with
        | ok r => simp [expandPath, hok, hev] at he
        | error fe =>
          cases fe with
          | notExist => simp [expandPath, hok, hev] at he
          | other => rfl
      · intro h
        rcases h with ⟨hpre', _⟩ | ⟨p', hp', hev⟩
        · rw [hpre'] at hpre; exact absurd rfl hpre
        · rw [hok] at hp'
          cases hp'
          exact ⟨.symlinkFailure, by simp [expandPath, hok, hev]⟩

/-- Witness for the amended C9 theorem: `~/.aws` on a host where it does not
exist resolves, with no error, to the home-expanded absolute unresolved form. -/
theorem C9_resolution_failure_modes_witness :
    expandPath
        { homeDir := some "/home/u", cwd := "/cwd", evalSymlinks := fun _ => .error .notExist }
        "~/.aws"
      = .ok "/home/u/.aws" := by
  exact (C9_resolution_failure_modes
    { homeDir := some "/home/u", cwd := "/cwd", evalSymlinks := fun _ => .error .notExist }
    "~/.aws").1 "/home/u/.aws" rfl rfl

/-- Claim C6: with the wildcard in allow-write the profile backend emits zero
blanket write-deny directives; without it the profile holds exactly one
blanket write-deny directive, and in every decomposition of the profile around
a specific allow-write override the blanket write-deny already occurs in the
part before the override. -/
theorem C6_profile_write_deny (s : darwinSandbox) :
    (HasWildcard s.cfg.AllowWrite = true →
      (s.generateProfile).count ProfLine.denyFileWriteAll = 0)
    ∧ (HasWildcard s.cfg.AllowWrite = false →
      (s.generateProfile).count ProfLine.denyFileWriteAll = 1
      ∧ ∀ pre q post, s.generateProfile = pre ++ ProfLine.allowFileWrite q :: post →
          ProfLine.denyFileWriteAll ∈ pre) := by
  constructor
  · intro hw
    by_cases hr : HasWildcard s.cfg.DenyRead <;>
      simp [darwinSandbox.generateProfile, hw, hr, List.count_eq_zero,
        wildcardReadAllowPaths]
  · intro hw
    constructor
    · by_cases hr : HasWildcard s.cfg.DenyRead <;>
        simp [darwinSandbox.generateProfile, hw, hr, List.count_append, List.count_cons,
          List.count_eq_zero, wildcardReadAllowPaths]
    · intro pre q post hdecomp
      have hform : s.generateProfile
          = [ProfLine.version1, ProfLine.allowDefault, ProfLine.allowNetwork,
             ProfLine.denyFileWriteAll]
            ++ ((s.cfg.AllowWrite.filter
                  (fun path => !pathInDenyRead path s.cfg.DenyRead)).map ProfLine.allowFileWrite
              ++ (if HasWildcard s.cfg.DenyRead then
                    ProfLine.denyFileReadAll :: wildcardReadAllowPaths.map ProfLine.allowFileRead
                  else s.cfg.DenyRead.map ProfLine.denyFileRead)) := by
        simp [darwinSandbox.generateProfile, hw]
      rw [hform] at hdecomp
      exact mem_prefix_of_eq_append _ _ pre post (ProfLine.allowFileWrite q)
        ProfLine.denyFileWriteAll hdecomp (by simp) (by simp)

/-- Witness for C6 at a concrete configuration without the wildcard:
the profile for allow-write `/w`, deny-read `/d` holds exactly one blanket
write-deny directive. -/
theorem C6_profile_write_deny_witness :
    HasWildcard ["/w"] = false
    ∧ (darwinSandbox.generateProfile
        { cfg := { Workdir := "/w", AllowWrite := ["/w"], DenyRead := ["/d"],
                   CleanEnv := false, EnvAllowlist := [], EnvDenylist := [],
                   DryRun := false } }).count ProfLine.denyFileWriteAll = 1 :=
  ⟨by decide,
    ((C6_profile_write_deny
      { cfg := { Workdir := "/w", AllowWrite := ["/w"], DenyRead := ["/d"],
                 CleanEnv := false, EnvAllowlist := [], EnvDenylist := [],
                 DryRun := false } }).2 (by decide)).1⟩

/-- Claim C3: the namespace backend's compiled argument sequence is exactly
the fixed order network flags, whole-root read-only bind, writable binds for
the non-deny-read allow-write paths, one tmpfs hide directive per deny-read
path, device and proc mounts, working-directory directive, and the shell
command; consequently, for every deny-read entry the sequence splits around
that entry's `--tmpfs` directive with the whole-root `--ro-bind / /` strictly
inside the part before it. -/
theorem C3_namespace_arg_order (s : linuxSandbox) (cmd : String) :
    s.buildArgs cmd
      = ["--share-net", "--die-with-parent"] ++ ["--ro-bind", "/", "/"]
        ++ ((s.cfg.AllowWrite.filter (fun path => !pathInDenyRead path s.cfg.DenyRead)).flatMap
            (fun path => ["--bind", path, path]))
        ++ (s.cfg.DenyRead.flatMap (fun path => ["--tmpfs", path]))
        ++ ["--dev", "/dev"] ++ ["--proc", "/proc"] ++ ["--chdir", s.cfg.Workdir]
        ++ ["sh", "-c", cmd]
    ∧ ∀ d ∈ s.cfg.DenyRead, ∃ pre post,
        s.buildArgs cmd = pre ++ "--tmpfs" :: d :: post
        ∧ ∃ pre₂ mid, pre = pre₂ ++ "--ro-bind" :: "/" :: "/" :: mid := by
  refine ⟨rfl, ?_⟩
  intro d hd
  obtain ⟨l₁, l₂, hsplit⟩ := List.append_of_mem hd
  refine ⟨["--share-net", "--die-with-parent", "--ro-bind", "/", "/"]
      ++ ((s.cfg.AllowWrite.filter (fun path => !pathInDenyRead path s.cfg.DenyRead)).flatMap
          (fun path => ["--bind", path, path]))
      ++ l₁.flatMap (fun path => ["--tmpfs", path]),
    l₂.flatMap (fun path => ["--tmpfs", path])
      ++ ["--dev", "/dev"] ++ ["--proc", "/proc"] ++ ["--chdir", s.cfg.Workdir]
      ++ ["sh", "-c", cmd], ?_, ?_⟩
  · simp [linuxSandbox.buildArgs, hsplit]
  · exact ⟨["--share-net", "--die-with-parent"],
      ((s.cfg.AllowWrite.filter (fun path => !pathInDenyRead path s.cfg.DenyRead)).flatMap
          (fun path => ["--bind", path, path]))
        ++ l₁.flatMap (fun path => ["--tmpfs", path]), by simp⟩

/-- Witness for C3 at a concrete configuration: deny-read entry `/d` has its
tmpfs directive preceded by the whole-root read-only bind. -/
theorem C3_namespace_arg_order_witness :
    ∃ pre post,
      linuxSandbox.buildArgs
          { cfg := { Workdir := "/w", AllowWrite := ["/w"], DenyRead := ["/d"],
                     CleanEnv := false, EnvAllowlist := [], EnvDenylist := [],
                     DryRun := false },
            bwrapBin := "/usr/bin/bwrap" } "true"
        = pre ++ "--tmpfs" :: "/d" :: post
      ∧ ∃ pre₂ mid, pre = pre₂ ++ "--ro-bind" :: "/" :: "/" :: mid :=
  (C3_namespace_arg_order
    { cfg := { Workdir := "/w", AllowWrite := ["/w"], DenyRead := ["/d"],
               CleanEnv := false, EnvAllowlist := [], EnvDenylist := [],
               DryRun := false },
      bwrapBin := "/usr/bin/bwrap" } "true").2 "/d" (by decide)

/-- Claim C1: for every allow-write path that is also classified deny-read,
the namespace backend's compiled argument sequence contains no consecutive
`--bind p p` writable-bind directive for it, and the profile backend's
generated profile contains no allow-write override for it (assuming, as the
system invariant guarantees, that every configured path is absolute). -/
theorem C1_deny_read_overrides_allow_write
    (cfg : Config) (p cmd bin : String)
    (habs : ∀ q ∈ cfg.AllowWrite, goHasPrefix q "/" = true)
    (hdabs : ∀ q ∈ cfg.DenyRead, goHasPrefix q "/" = true)
    (hp : p ∈ cfg.AllowWrite)
    (hdeny : pathInDenyRead p cfg.DenyRead = true) :
    containsSequence (linuxSandbox.buildArgs ⟨cfg, bin⟩ cmd) ["--bind", p, p] = false
    ∧ ProfLine.allowFileWrite p ∉ darwinSandbox.generateProfile ⟨cfg⟩ := by
  constructor
  · have hshape : linuxSandbox.buildArgs ⟨cfg, bin⟩ cmd
        = ["--share-net", "--die-with-parent", "--ro-bind", "/", "/"]
          ++ (((cfg.AllowWrite.filter (fun path => !pathInDenyRead path cfg.DenyRead)).flatMap
                (fun path => ["--bind", path, path]))
            ++ ((cfg.DenyRead.flatMap (fun path => ["--tmpfs", path]))
              ++ ["--dev", "/dev", "--proc", "/proc", "--chdir", cfg.Workdir,
                  "sh", "-c", cmd])) := by
      simp [linuxSandbox.buildArgs]
    rw [hshape]
    apply containsSequence_front
    apply containsSequence_flatMap_bind
    · intro q hq
      exact habs q (List.mem_of_mem_filter hq)
    · intro hmem
      have := (List.mem_filter.mp hmem).2
      rw [hdeny] at this
      simp at this
    · apply containsSequence_flatMap_tmpfs
      · exact hdabs
      · exact containsSequence_fixed_tail p cfg.Workdir cmd (habs p hp)
  · intro hmem
    by_cases hw : HasWildcard cfg.AllowWrite
    · by_cases hr : HasWildcard cfg.DenyRead <;>
        simp [darwinSandbox.generateProfile, hw, hr, wildcardReadAllowPaths] at hmem
    · by_cases hr : HasWildcard cfg.DenyRead <;>
        · simp [darwinSandbox.generateProfile, hw, hr, wildcardReadAllowPaths] at hmem
          obtain ⟨hmem', hfilter⟩ := hmem
          rw [hdeny] at hfilter
          simp at hfilter

/-- Witness for C1: allow-write `["/w", "/s"]` with deny-read `["/s"]` — the
deny-read path `/s` receives neither a writable bind in the bubblewrap
arguments nor an allow-write override in the profile. -/
theorem C1_deny_read_overrides_allow_write_witness :
    ("/s" ∈ (["/w", "/s"] : List String))
    ∧ pathInDenyRead "/s" ["/s"] = true
    ∧ containsSequence
        (linuxSandbox.buildArgs
          { cfg := { Workdir := "/w", AllowWrite := ["/w", "/s"], DenyRead := ["/s"],
                     CleanEnv := false, EnvAllowlist := [], EnvDenylist := [],
                     DryRun := false },
            bwrapBin := "/usr/bin/bwrap" } "true") ["--bind", "/s", "/s"] = false
    ∧ ProfLine.allowFileWrite "/s"
        ∉ darwinSandbox.generateProfile
            { cfg := { Workdir := "/w", AllowWrite := ["/w", "/s"], DenyRead := ["/s"],
                       CleanEnv := false, EnvAllowlist := [], EnvDenylist := [],
                       DryRun := false } } := by
  refine ⟨by decide, by decide, ?_, ?_⟩
  · exact (C1_deny_read_overrides_allow_write
      { Workdir := "/w", AllowWrite := ["/w", "/s"], DenyRead := ["/s"], CleanEnv := false,
        EnvAllowlist := [], EnvDenylist := [], DryRun := false }
      "/s" "true" "/usr/bin/bwrap" (by decide) (by decide) (by decide) (by decide)).1
  · exact (C1_deny_read_overrides_allow_write
      { Workdir := "/w", AllowWrite := ["/w", "/s"], DenyRead := ["/s"], CleanEnv := false,
        EnvAllowlist := [], EnvDenylist := [], DryRun := false }
      "/s" "true" "/usr/bin/bwrap" (by decide) (by decide) (by decide) (by decide)).2

/-- Claim C10: the environment filter matches its contract in both modes
(for well-formed environments whose keys contain no `=` and a duplicate-free
allowlist). Clean mode: exactly the allowlisted keys set in the parent
environment, followed by whichever of PATH, HOME, USER, TERM are set and not
already added, each key appearing exactly once. Denylist mode: exactly the
parent environment minus every entry whose key is denylisted. -/
theorem C10_environment_filter (cfg : Config) (env : List (String × String))
    (hkeys : ∀ kv ∈ env, ∀ c ∈ (kv : String × String).1.data, c ≠ '=')
    (hallow : ∀ k ∈ cfg.EnvAllowlist, ∀ c ∈ k.data, c ≠ '=')
    (hnodup : cfg.EnvAllowlist.Nodup) :
    (cfg.CleanEnv = true →
      buildEnv cfg env = cleanEnvAllowlistPart cfg env ++ cleanEnvEssentialPart cfg env
      ∧ ((buildEnv cfg env).map goEnvKey).Nodup)
    ∧ (cfg.CleanEnv = false →
      buildEnv cfg env
        = (env.filter (fun kv => !cfg.EnvDenylist.contains kv.1)).map envEntry) := by
  constructor
  · intro hclean
    have hmain : buildEnv cfg env
        = cleanEnvAllowlistPart cfg env ++ cleanEnvEssentialPart cfg env := by
      rw [buildEnv_clean_decomp cfg env hclean hallow, essPart_match cfg env,
        ← allowPart_eq cfg env]
    refine ⟨hmain, ?_⟩
    rw [hmain, List.map_append, List.nodup_append]
    refine ⟨?_, ?_, ?_⟩
    · rw [allowKeys_eq cfg env hallow]
      refine List.Nodup.filterMap ?_ hnodup
      intro a a' b hb hb'
      have hba : b = a := by
        cases hl : lookupEnv env a with
        | none => rw [hl] at hb; simp at hb
        | some v => rw [hl] at hb; simpa using hb.symm
      have hba' : b = a' := by
        cases hl : lookupEnv env a' with
        | none => rw [hl] at hb'; simp at hb'
        | some v => rw [hl] at hb'; simpa using hb'.symm
      rw [← hba, ← hba']
    · rw [essKeys_eq cfg env]
      refine List.Nodup.filterMap ?_ (by decide)
      intro a a' b hb hb'
      have hba : b = a := by
        cases hl : lookupEnv env a with
        | none => rw [hl] at hb; simp at hb
        | some v =>
          rw [hl] at hb
          by_cases hm : a ∈ cfg.EnvAllowlist
          · simp [hm] at hb
          · simp [hm] at hb; exact hb.symm
      have hba' : b = a' := by
        cases hl : lookupEnv env a' with
        | none => rw [hl] at hb'; simp at hb'
        | some v =>
          rw [hl] at hb'
          by_cases hm : a' ∈ cfg.EnvAllowlist
          · simp [hm] at hb'
          · simp [hm] at hb'; exact hb'.symm
      rw [← hba, ← hba']
    · rw [allowKeys_eq cfg env hallow, essKeys_eq cfg env]
      intro a ha hae
      obtain ⟨key, hkey, hmap⟩ := List.mem_filterMap.mp ha
      have hka : a = key := by
        cases hl : lookupEnv env key with
        | none => rw [hl] at hmap; simp at hmap
        | some v => rw [hl] at hmap; simpa using hmap.symm
      obtain ⟨key', hkey', hmap'⟩ := List.mem_filterMap.mp hae
      cases hl' : lookupEnv env key' with
      | none => rw [hl'] at hmap'; simp at hmap'
      | some v' =>
        rw [hl'] at hmap'
        by_cases hm : key' ∈ cfg.EnvAllowlist
        · simp [hm] at hmap'
        · simp [hm] at hmap'
          apply hm
          rw [hmap', hka]
          exact hkey
  · intro hclean
    simp only [buildEnv, hclean, Bool.false_eq_true, if_false]
    rw [List.filter_map]
    have hfc : List.filter ((fun e => !cfg.EnvDenylist.contains (goEnvKey e)) ∘ envEntry) env
        = List.filter (fun kv => !cfg.EnvDenylist.contains kv.1) env := by
      apply List.filter_congr
      intro kv hkv
      simp [Function.comp, envEntry, goEnvKey_entry kv.1 kv.2 (hkeys kv hkv)]
    rw [hfc]

/-- Witness for C10 in clean mode at the concrete allowlist
`["NODE_ENV", "PATH"]` over a four-variable parent environment. -/
theorem C10_environment_filter_witness :
    buildEnv
        { Workdir := "/w", AllowWrite := [], DenyRead := [], CleanEnv := true,
          EnvAllowlist := ["NODE_ENV", "PATH"], EnvDenylist := [], DryRun := false }
        [("SECRET", "x"), ("NODE_ENV", "test"), ("PATH", "/bin"), ("HOME", "/root")]
      = cleanEnvAllowlistPart
          { Workdir := "/w", AllowWrite := [], DenyRead := [], CleanEnv := true,
            EnvAllowlist := ["NODE_ENV", "PATH"], EnvDenylist := [], DryRun := false }
          [("SECRET", "x"), ("NODE_ENV", "test"), ("PATH", "/bin"), ("HOME", "/root")]
        ++ cleanEnvEssentialPart
            { Workdir := "/w", AllowWrite := [], DenyRead := [], CleanEnv := true,
              EnvAllowlist := ["NODE_ENV", "PATH"], EnvDenylist := [], DryRun := false }
            [("SECRET", "x"), ("NODE_ENV", "test"), ("PATH", "/bin"), ("HOME", "/root")] :=
  ((C10_environment_filter
    { Workdir := "/w", AllowWrite := [], DenyRead := [], CleanEnv := true,
      EnvAllowlist := ["NODE_ENV", "PATH"], EnvDenylist := [], DryRun := false }
    [("SECRET", "x"), ("NODE_ENV", "test"), ("PATH", "/bin"), ("HOME", "/root")]
    (by decide) (by decide) (by decide)).1 rfl).1

end AgentSandbox
